import Mathlib

/-!
Verification of the request-processing core of the lixqa-api server
(`src/lib/managers/ratelimits.ts`, `src/lib/managers/routes.ts`,
`src/lib/managers/middlewares.ts`, `src/lib/helpers/parser.ts` (API class),
`src/lib/structures/route.ts` (Server request pipeline)).

The TypeScript source is shallowly embedded below.  Timestamps (`Date.now()`)
are modelled as a `now : Nat` argument per call; the `@discordjs/collection`
ordered map holding rate-limit buckets is modelled as a `List` in insertion
order (`Collection.find` scans insertion order, `set` of a fresh uuid key
appends, `filter` preserves order, in-place mutation of a found item is
modelled by replacing the first matching element).
-/

namespace LixqaApi

/-! ## Rate limiter (`src/lib/managers/ratelimits.ts`) -/

/-- Resolved per-method rate-limit settings (`route.ratelimitsFor(method)`):
`{ limit, remember, punishment, strict, type, scope }`. -/
structure RlSettings where
  limit : Nat
  remember : Nat
  punishment : Nat
  strict : Bool
  scope : String
  type : String
  deriving Repr, DecidableEq

/-- One entry of `RatelimitManager.items` (type `RatelimitItem` in the source):
`{ client, route, count, start, end, limited }`.  `end` is a Lean keyword, so
the field is named `end_`. -/
structure RatelimitItem where
  client : String
  route : String
  count : Nat
  start : Nat
  end_ : Nat
  limited : Bool
  deriving Repr, DecidableEq

/-- The rate-limit headers set by `RatelimitManager.check` (lines 56-63):
`X-Ratelimit-Limit`, `X-Ratelimit-Remaining` (`settings.limit - item.count`,
a JS number, so modelled as `Int`), `X-Ratelimit-Reset` (`item.end`),
`X-Ratelimit-Reset-After` (`item.end - Date.now()`, an `Int`), and
`X-Ratelimit-Scope`. -/
structure RlHeaders where
  limit : Nat
  remaining : Int
  reset : Nat
  resetAfter : Int
  scope : String
  deriving Repr, DecidableEq

/-- `this.items.find(item => item.client == clientIdentifier && item.route ==
routeIdentifier)`: first entry in insertion order matching both keys. -/
def findItem (client route : String) : List RatelimitItem → Option RatelimitItem
  | [] => none
  | b :: bs =>
    if b.client = client ∧ b.route = route then some b else findItem client route bs

/-- In-place mutation of the entry returned by `items.find(...)`: replace the
first entry matching both keys by `f` of it, leaving everything else alone. -/
def updateFirst (client route : String) (f : RatelimitItem → RatelimitItem) :
    List RatelimitItem → List RatelimitItem
  | [] => []
  | b :: bs =>
    if b.client = client ∧ b.route = route then f b :: bs
    else b :: updateFirst client route f bs

/-- The fresh bucket created when no entry matches (lines 33-44):
`{ client, route, count: 0, start: now, end: now + settings.remember,
limited: false }`. -/
def freshItem (client route : String) (s : RlSettings) (now : Nat) : RatelimitItem :=
  { client := client, route := route, count := 0, start := now,
    end_ := now + s.remember, limited := false }

/-- The mutation `check` performs on the (found or created) item
(lines 46-54): if `count >= limit` then, if already `limited`, extend
`end = now + punishment` when `strict`; otherwise mark `limited` and set
`end = now + max(punishment, remember)`. -/
def bucketAfterCheck (s : RlSettings) (now : Nat) (b : RatelimitItem) : RatelimitItem :=
  if s.limit ≤ b.count then
    if b.limited then
      if s.strict then { b with end_ := now + s.punishment } else b
    else
      { b with limited := true, end_ := now + max s.punishment s.remember }
  else b

/-- The headers reported by `check` (lines 56-63), computed from the item
after the mutation above. -/
def mkHeaders (s : RlSettings) (b : RatelimitItem) (now : Nat) : RlHeaders :=
  { limit := s.limit, remaining := (s.limit : Int) - (b.count : Int),
    reset := b.end_, resetAfter := (b.end_ : Int) - (now : Int), scope := s.scope }

/-- Result of `RatelimitManager.check`: the returned `item.limited`, the
headers it sets on the response, and the items collection after mutation. -/
structure CheckResult where
  limited : Bool
  headers : RlHeaders
  state : List RatelimitItem
  deriving Repr

/-- `RatelimitManager.check` (lines 21-66) for a request whose route is
resolved (the `!api.route` early-return does not occur in the pipeline, which
responds 404 before `check` when no route matches).  `client` and `route` are
the values of `getClientIdentifier`/`getRouteIdentifier`, `s` is
`api.route.ratelimitsFor(api.method)`. -/
def check (s : RlSettings) (client route : String) (now : Nat)
    (st : List RatelimitItem) : CheckResult :=
  match findItem client route st with
  | none =>
    let b := bucketAfterCheck s now (freshItem client route s now)
    { limited := b.limited, headers := mkHeaders s b now, state := st ++ [b] }
  | some b0 =>
    let b := bucketAfterCheck s now b0
    { limited := b.limited, headers := mkHeaders s b now,
      state := updateFirst client route (bucketAfterCheck s now) st }

/-- `RatelimitManager.increase` (lines 108-121): find the bucket and increment
`count` only when `settings.limit > item.count`. -/
def increase (s : RlSettings) (client route : String)
    (st : List RatelimitItem) : List RatelimitItem :=
  updateFirst client route
    (fun b => if s.limit > b.count then { b with count := b.count + 1 } else b) st

/-- `RatelimitManager.cleanup` (lines 104-106): keep only items with
`item.end > Date.now()`. -/
def cleanup (now : Nat) (st : List RatelimitItem) : List RatelimitItem :=
  st.filter (fun b => now < b.end_)

/-- One request-pipeline rate-limit step (`Server`, route.ts lines 361-366):
`check`; on `limited` respond 429 (no `increase`), otherwise `increase`.
Returns the reported `limited` flag and the resulting bucket table. -/
def cycle (s : RlSettings) (client route : String) (now : Nat)
    (st : List RatelimitItem) : Bool × List RatelimitItem :=
  let r := check s client route now st
  if r.limited then (true, r.state) else (false, increase s client route r.state)

/-! Sequences of rate-limiter operations.  The settings used for a bucket are
determined by its route identifier: the identifier is `method + path` (or
`method + url`), and `route.ratelimitsFor(method)` is a pure function of the
route and method, so a fixed map `S : String → RlSettings` from route
identifier to resolved settings models any run of the real manager. -/

/-- An operation on the shared bucket table: a `check`, an `increase`
(admit), or a periodic `cleanup` sweep. -/
inductive RlOp where
  | check (client route : String) (now : Nat)
  | increase (client route : String)
  | cleanup (now : Nat)
  deriving Repr

/-- Apply one operation to the bucket table, with settings resolved from the
route identifier by `S`. -/
def applyOp (S : String → RlSettings) (st : List RatelimitItem) : RlOp → List RatelimitItem
  | .check client route now => (check (S route) client route now st).state
  | .increase client route => increase (S route) client route st
  | .cleanup now => cleanup now st

/-- The bucket table after a sequence of operations starting from the empty
collection. -/
def runOps (S : String → RlSettings) (ops : List RlOp) : List RatelimitItem :=
  ops.foldl (applyOp S) []

example :
    (cycle ⟨2, 100, 50, true, "ip", "endpoint"⟩ "c" "r" 5 []).2 =
      [⟨"c", "r", 1, 5, 105, false⟩] := by decide

example :
    (check ⟨1, 100, 50, true, "ip", "endpoint"⟩ "c" "r" 7
      [⟨"c", "r", 1, 0, 100, false⟩]).limited = true := by decide

/-! ## URL matching (`path-to-regexp`'s `match(route.path, { decode:
decodeURIComponent })`, as used by `RouteManager.resolveUrl`)

Route patterns produced by `filePathToRoutePath` are `/`-separated segment
lists in which a segment starting with `:` is a named parameter; `match`
compiles such a pattern to a regex in which a parameter matches one non-empty
segment (`[^/]+`), a trailing slash on the URL is optional, and captured
parameter values are decoded with `decodeURIComponent`. -/

/-- Split a character list on a separator (the segment structure of a path;
`"/a/b".splitOn "/" = ["", "a", "b"]`). -/
def splitCharsAux (sep : Char) : List Char → List (List Char)
  | [] => [[]]
  | c :: rest =>
    let r := splitCharsAux sep rest
    if c = sep then [] :: r
    else
      match r with
      | g :: gs => (c :: g) :: gs
      | [] => [[c]]

/-- The segments of a path: everything after the leading `/`. -/
def splitPath (s : String) : List String :=
  ((splitCharsAux '/' s.data).map (fun l => String.mk l)).drop 1

/-- `decodeURIComponent` restricted to single-byte escapes: a `%hh` hex escape
becomes the character with code `hh`; other characters (and malformed `%`)
are kept as-is. -/
def hexDigitVal (c : Char) : Option Nat :=
  if '0' ≤ c ∧ c ≤ '9' then some (c.toNat - '0'.toNat)
  else if 'a' ≤ c ∧ c ≤ 'f' then some (c.toNat - 'a'.toNat + 10)
  else if 'A' ≤ c ∧ c ≤ 'F' then some (c.toNat - 'A'.toNat + 10)
  else none

def percentDecodeAux : List Char → List Char
  | [] => []
  | '%' :: h1 :: h2 :: rest =>
    match hexDigitVal h1, hexDigitVal h2 with
    | some a, some b => Char.ofNat (16 * a + b) :: percentDecodeAux rest
    | _, _ => '%' :: percentDecodeAux (h1 :: h2 :: rest)
  | c :: rest => c :: percentDecodeAux rest

def percentDecode (s : String) : String :=
  String.mk (percentDecodeAux s.data)

/-- Does this pattern segment denote a named parameter (`:name`)? -/
def isParamSeg (p : String) : Bool :=
  match p.data with
  | c :: _ => c = ':'
  | [] => false

/-- The parameter name of a `:name` segment. -/
def paramName (p : String) : String :=
  String.mk p.data.tail

/-- A trailing slash on the URL is optional (`path-to-regexp` compiles with
`strict: false`): one trailing empty segment is dropped. -/
def normalizeSegs (segs : List String) : List String :=
  if 1 < segs.length ∧ segs.getLast? = some "" then segs.dropLast else segs

/-- Match pattern segments against URL segments: a parameter segment captures
one non-empty URL segment (decoded), a literal segment must be equal. -/
def segMatch : List String → List String → Option (List (String × String))
  | [], [] => some []
  | p :: ps, u :: us =>
    if isParamSeg p then
      if u = "" then none
      else (segMatch ps us).map (fun l => (paramName p, percentDecode u) :: l)
    else if p = u then segMatch ps us else none
  | _, _ => none

/-- `match(pattern, { decode: decodeURIComponent })(url)`, specialised to the
patterns this framework produces: `some params` on a match. -/
def matchPattern (pattern url : String) : Option (List (String × String)) :=
  segMatch (splitPath pattern) (normalizeSegs (splitPath url))

example : matchPattern "/users/:userId" "/users/a%41b" = some [("userId", "aAb")] := by
  decide
example : matchPattern "/users/:userId" "/users" = none := by decide
example : matchPattern "/users" "/users/" = some [] := by decide
example : matchPattern "/" "/" = some [] := by decide
example : matchPattern "/:x" "/__client__" = some [("x", "__client__")] := by decide

/-! ## Routes and the request pipeline

External collaborators (middleware functions, route handlers, the custom
`authOverwrite` callback, the host's `authenticationMethod`, Zod validators)
are opaque user code; each is modelled by the outcomes it can produce at its
call site, exactly as the pipeline observes them. -/

/-- What a middleware function does when invoked (`MiddlewareManager.
executeAll` awaits each in order): complete normally, write a response via
`api.send` (which then throws the `'API_KILL'` stop sentinel), or throw a
real error. -/
inductive MwBehavior where
  | ok
  | send (status : Nat)
  | fail
  deriving Repr, DecidableEq

/-- What a route handler does when awaited by the pipeline: send a response
(stop sentinel), throw a real error, or return without sending. -/
inductive HandlerBehavior where
  | send (status : Nat)
  | fail
  | returns
  deriving Repr, DecidableEq

/-- What `settings.authOverwrite(this)` evaluates to, as the `authorize` code
can observe it: a plain boolean, a `Promise` resolving to a boolean, a
synchronous throw, or a `Promise` that rejects. -/
inductive AuthOverwriteBehavior where
  | sync (b : Bool)
  | async (b : Bool)
  | failSync
  | failAsync
  deriving Repr, DecidableEq

/-- A Zod validator for one category, as consumed through
`schema.safeParse(value)`: failure carries the formatted error, success the
parsed/coerced value.  Values and error trees are abstract (`Nat`). -/
def ZodValidator := Nat → Except Nat Nat

/-- A Zod validator for the params category, whose input is the param list
extracted by the route matcher. -/
def ZodParamsValidator := List (String × String) → Except Nat (List (String × String))

/-- The per-method part of a schema file (`schema?.[method]`): optional
`body`, `files` and `query` validators. -/
structure MethodSchema where
  body : Option ZodValidator
  files : Option ZodValidator
  query : Option ZodValidator

/-- A loaded schema file: per-method schemas (indexed by method name) and the
global `params` schema shared across methods. -/
structure SchemaFile where
  methods : List (String × MethodSchema)
  params : Option ZodParamsValidator

/-- Look up the method schema (`schema?.[method]`). -/
def SchemaFile.forMethod (sf : SchemaFile) (method : String) : Option MethodSchema :=
  (sf.methods.find? (fun kv => kv.1 = method)).map (fun kv => kv.2)

/-- Resolved per-method route settings (`route.settingsFor(method)` merged
from defaults, route-level and method-level layers), restricted to the fields
the pipeline reads: `{ unauthed, disabled, moved, authOverwrite }`. -/
structure RouteSettings where
  unauthed : Bool
  disabled : Bool
  moved : Option String
  authOverwrite : Option AuthOverwriteBehavior

/-- One registered route as the pipeline sees it for the request's method:
its derived path pattern, resolved settings, resolved rate-limit settings,
the handler registered for the method (if any), and the bound schema. -/
structure RouteDef where
  path : String
  settings : RouteSettings
  ratelimits : RlSettings
  handler : Option HandlerBehavior
  schema : Option SchemaFile

/-- `RouteManager.resolveUrl` (routes.ts lines 215-225): iterate registered
routes in insertion order, return the first whose pattern matches. -/
def resolveUrl (routes : List RouteDef) (url : String) :
    Option (RouteDef × List (String × String)) :=
  match routes with
  | [] => none
  | route :: rest =>
    match matchPattern route.path url with
    | some params => some (route, params)
    | none => resolveUrl rest url

/-! ### Route registration (`RouteManager.init`, routes.ts lines 19-91)

`items` is a `Collection` keyed by derived path: `set` of an existing key
replaces the value in place, `set` of a new key appends. -/

/-- `Collection.set` semantics on an insertion-ordered key/value list. -/
def setKV (k : String) (v : RouteDef) :
    List (String × RouteDef) → List (String × RouteDef)
  | [] => [(k, v)]
  | (k', v') :: rest =>
    if k' = k then (k, v) :: rest else (k', v') :: setKV k v rest

/-- `Collection.get` semantics (first — and only — entry with the key). -/
def lookupKV : List (String × RouteDef) → String → Option RouteDef
  | [], _ => none
  | (k', v) :: rest, k => if k' = k then some v else lookupKV rest k

/-- One step of the user-route loop of `RouteManager.init`: a user route
whose derived path is reserved is skipped with a warning (`continue`),
otherwise it is `set` into the collection. -/
def userFoldStep (reservedPaths : List String)
    (acc : List (String × RouteDef) × Nat) (r : RouteDef) :
    List (String × RouteDef) × Nat :=
  if r.path ∈ reservedPaths then (acc.1, acc.2 + 1)
  else (setKV r.path r acc.1, acc.2)

/-- The final loop of `RouteManager.init`: every internal route is `set` into
the collection at its path (overriding whatever sits there). -/
def internalFold (il : List RouteDef) (items : List (String × RouteDef)) :
    List (String × RouteDef) :=
  il.foldl (fun items r => setKV r.path r items) items

/-- `RouteManager.init`: user routes are processed first and a user route
whose derived path is in the reserved set (the internal routes' paths) is
dropped with a warning (`continue`); afterwards every internal route is `set`
into the collection, overriding at its path.  Returns the final collection
and the number of reserved-conflict warnings. -/
def initRoutes (userRoutes internalRoutes : List RouteDef) :
    List (String × RouteDef) × Nat :=
  let reservedPaths := internalRoutes.map (fun r => r.path)
  let afterUsers := userRoutes.foldl (userFoldStep reservedPaths) ([], 0)
  (internalFold internalRoutes afterUsers.1, afterUsers.2)

/-- The registered routes in registration order (`Collection.values`). -/
def routeValues (items : List (String × RouteDef)) : List RouteDef :=
  items.map (fun kv => kv.2)

/-! ### Authorization (`API.authorize`, parser.ts lines 130-183) -/

/-- How `authorize` ends: proceed (with the principal that was assigned to
`api.authentication`, if any), respond 401 via `this.throw` (stop sentinel
after the response is written), or let a real exception propagate (no
response is written on this path — `await api.authorize()` is not wrapped in
a try/catch in the pipeline). -/
inductive AuthorizeOutcome where
  | proceed (principal : Option String)
  | unauthorized
  | exception
  deriving Repr, DecidableEq

def AuthorizeOutcome.isProceed : AuthorizeOutcome → Bool
  | .proceed _ => true
  | _ => false

/-- `API.authorize` for a resolved route.  `resolver` is the host's
`authenticationMethod` observed through its awaited result (the code awaits
it whether synchronous or a promise).  Note the `authOverwrite` branch: the
code stores `settings.authOverwrite(this)` in `passedAuthOverwrite`, awaits
it if it is a `Promise`, and then tests `if (!passedAuthOverwrite)` — for an
asynchronous override this tests the `Promise` object itself, which is always
truthy, so the resolved boolean is never consulted. -/
def authorize (settings : RouteSettings) (token : Option String)
    (resolver : String → Option String) : AuthorizeOutcome :=
  match settings.authOverwrite with
  | some ov =>
    match ov with
    | .sync b => if b then .proceed none else .unauthorized
    | .async _ => .proceed none
    | .failSync => .exception
    | .failAsync => .exception
  | none =>
    match token with
    | none => if settings.unauthed then .proceed none else .unauthorized
    | some t =>
      match resolver t with
      | none => if settings.unauthed then .proceed none else .unauthorized
      | some principal => .proceed (some principal)

/-! ### Middleware chain (`MiddlewareManager.executeAll`, middlewares.ts
lines 62-77) -/

/-- How the middleware chain ends: all entries completed, some entry wrote a
response (its `send` threw the stop sentinel), or some entry threw a real
error.  Entries run strictly in order; the first `send`/`fail` terminates the
chain. -/
inductive MwOutcome where
  | completed
  | stopped (status : Nat)
  | errored
  deriving Repr, DecidableEq

def executeAll : List MwBehavior → MwOutcome
  | [] => .completed
  | .ok :: rest => executeAll rest
  | .send s :: _ => .stopped s
  | .fail :: _ => .errored

/-! ### Schema validation (`API.validateSchema`, parser.ts lines 185-272) -/

/-- The per-category error record `validateSchema` returns (each entry is
`undefined` or a formatted Zod error). -/
structure SchemaErrors where
  body : Option Nat
  params : Option Nat
  query : Option Nat
  files : Option Nat
  deriving Repr, DecidableEq

def SchemaErrors.hasErrors (e : SchemaErrors) : Bool :=
  e.body.isSome || e.params.isSome || e.query.isSome || e.files.isSome

/-- `API.validateSchema` for a resolved route.  Body is validated only for
non-`GET` methods with a method body schema; files likewise only for
non-`GET` methods with a method files schema (against the raw file list);
params against the global `params` schema for every method; query against the
method schema's `query`.  (Successful categories are rebound onto the
request; only the error record matters to the pipeline's control flow.) -/
def validateSchema (method : String) (schema : Option SchemaFile)
    (body filesRaw : Nat) (params : List (String × String)) (query : Nat) :
    SchemaErrors :=
  let methodSchema := schema.bind (fun sf => sf.forMethod method)
  let bodyErr :=
    if method ≠ "GET" then
      match methodSchema.bind (fun ms => ms.body) with
      | some v => match v body with | .error e => some e | .ok _ => none
      | none => none
    else none
  let filesErr :=
    if method ≠ "GET" then
      match methodSchema.bind (fun ms => ms.files) with
      | some v => match v filesRaw with | .error e => some e | .ok _ => none
      | none => none
    else none
  let paramsErr :=
    match schema.bind (fun sf => sf.params) with
    | some v => match v params with | .error e => some e | .ok _ => none
    | none => none
  let queryErr :=
    match methodSchema.bind (fun ms => ms.query) with
    | some v => match v query with | .error e => some e | .ok _ => none
    | none => none
  { body := bodyErr, params := paramsErr, query := queryErr, files := filesErr }

/-! ### Rate-limit keying (`RatelimitManager.getClientIdentifier` /
`getRouteIdentifier`, ratelimits.ts lines 68-102) -/

/-- `getClientIdentifier`: by resolved `scope`.  The pipeline runs the rate
limiter before `authorize`, so `api.authentication` is still unset at keying
time and is passed here as the principal-so-far. -/
def getClientIdentifier (scope : String) (ip : String) (authId : Option String) :
    String :=
  if scope = "ip" then ip
  else if scope = "authentication" then
    match authId with
    | some a => a
    | none => ip
  else if scope = "global" then "global"
  else ip

/-- `getRouteIdentifier`: method, plus the route pattern for `type ==
'endpoint'` or the concrete request pathname for `type == 'parameter'`. -/
def getRouteIdentifier (type_ : String) (method routePath rawPath : String) :
    String :=
  if type_ = "endpoint" then method ++ routePath
  else if type_ = "parameter" then method ++ rawPath
  else method

/-! ### The request pipeline (`Server`, route.ts lines 224-246 (resolving
layer) and 340-419 (processing layer)) -/

/-- The per-request inputs handed over by the transport layer. -/
structure RequestInput where
  url : String
  method : String
  ip : String
  token : Option String
  body : Nat
  filesRaw : Nat
  query : Nat

/-- Server-level collaborators: the loaded middleware chain (in `sortKey`
order) and the host's authentication resolver (observed through its awaited
result). -/
structure ServerCfg where
  middlewares : List MwBehavior
  authResolver : String → Option String

/-- Everything externally observable about one pipeline execution: the status
codes written (in order), the rate-limit headers set by `check` (if the
rate-limit stage ran), whether the `x-bad-request-type` marker header was
set, how many times `onError` was invoked, whether `validateSchema` ran,
whether the route handler was invoked, and the bucket table afterwards. -/
structure PipelineOutcome where
  responses : List Nat
  rlHeaders : Option RlHeaders
  badRequestMarker : Bool
  reported : Nat
  validatorRan : Bool
  handlerRan : Bool
  finalRl : List RatelimitItem

/-- The request pipeline, for a non-multipart request.  Stage order as in the
source: resolve (404) → disabled (503) → moved (301) → rate-limit `check`
(429) then `increase` → `authorize` (401, or a propagated exception that
writes nothing) → middleware chain (stop sentinel ends processing; a real
error is reported and becomes 500) → `validateSchema` (any category error:
marker header and 400) → handler if registered for the method (stop sentinel
ends processing; a real error is reported and becomes 500; returning without
sending writes nothing), else 405. -/
def handleRequest (cfg : ServerCfg) (routes : List RouteDef) (req : RequestInput)
    (now : Nat) (rl : List RatelimitItem) : PipelineOutcome :=
  match resolveUrl routes req.url with
  | none =>
    { responses := [404], rlHeaders := none, badRequestMarker := false,
      reported := 0, validatorRan := false, handlerRan := false, finalRl := rl }
  | some (route, params) =>
    let settings := route.settings
    if settings.disabled then
      { responses := [503], rlHeaders := none, badRequestMarker := false,
        reported := 0, validatorRan := false, handlerRan := false, finalRl := rl }
    else if settings.moved.isSome then
      { responses := [301], rlHeaders := none, badRequestMarker := false,
        reported := 0, validatorRan := false, handlerRan := false, finalRl := rl }
    else
      let clientId := getClientIdentifier route.ratelimits.scope req.ip none
      let routeId := getRouteIdentifier route.ratelimits.type req.method
        route.path req.url
      let chk := check route.ratelimits clientId routeId now rl
      if chk.limited then
        { responses := [429], rlHeaders := some chk.headers,
          badRequestMarker := false, reported := 0, validatorRan := false,
          handlerRan := false, finalRl := chk.state }
      else
        let rl2 := increase route.ratelimits clientId routeId chk.state
        match authorize settings req.token cfg.authResolver with
        | .unauthorized =>
          { responses := [401], rlHeaders := some chk.headers,
            badRequestMarker := false, reported := 0, validatorRan := false,
            handlerRan := false, finalRl := rl2 }
        | .exception =>
          { responses := [], rlHeaders := some chk.headers,
            badRequestMarker := false, reported := 0, validatorRan := false,
            handlerRan := false, finalRl := rl2 }
        | .proceed _ =>
          match executeAll cfg.middlewares with
          | .stopped s =>
            { responses := [s], rlHeaders := some chk.headers,
              badRequestMarker := false, reported := 0, validatorRan := false,
              handlerRan := false, finalRl := rl2 }
          | .errored =>
            { responses := [500], rlHeaders := some chk.headers,
              badRequestMarker := false, reported := 1, validatorRan := false,
              handlerRan := false, finalRl := rl2 }
          | .completed =>
            let errors := validateSchema req.method route.schema req.body
              req.filesRaw params req.query
            if errors.hasErrors then
              { responses := [400], rlHeaders := some chk.headers,
                badRequestMarker := true, reported := 0, validatorRan := true,
                handlerRan := false, finalRl := rl2 }
            else
              match route.handler with
              | some h =>
                match h with
                | .send s =>
                  { responses := [s], rlHeaders := some chk.headers,
                    badRequestMarker := false, reported := 0,
                    validatorRan := true, handlerRan := true, finalRl := rl2 }
                | .fail =>
                  { responses := [500], rlHeaders := some chk.headers,
                    badRequestMarker := false, reported := 1,
                    validatorRan := true, handlerRan := true, finalRl := rl2 }
                | .returns =>
                  { responses := [], rlHeaders := some chk.headers,
                    badRequestMarker := false, reported := 0,
                    validatorRan := true, handlerRan := true, finalRl := rl2 }
              | none =>
                { responses := [405], rlHeaders := some chk.headers,
                  badRequestMarker := false, reported := 0,
                  validatorRan := true, handlerRan := false, finalRl := rl2 }

/-! ## Concrete fixtures used by witnesses and counterexamples -/

/-- Fully open resolved settings: unauthenticated access allowed, not
disabled, not moved, no custom authorization override. -/
def openSettings : RouteSettings :=
  { unauthed := true, disabled := false, moved := none, authOverwrite := none }

/-- The end-to-end example route of the spec: `/users/:userId` with
`limit=1, remember=60000, punishment=60000, strict=true, scope=ip`. -/
def route5 : RouteDef :=
  { path := "/users/:userId", settings := openSettings,
    ratelimits := ⟨1, 60000, 60000, true, "ip", "endpoint"⟩,
    handler := some (.send 200), schema := none }

/-- A server with no middleware and an authentication resolver that never
finds a principal. -/
def plainCfg : ServerCfg := { middlewares := [], authResolver := fun _ => none }

/-- A GET request to `/users/7` from the given IP, no token. -/
def req5 (ip : String) : RequestInput :=
  { url := "/users/7", method := "GET", ip := ip, token := none,
    body := 0, filesRaw := 0, query := 0 }

/-! ## Claims -/

/-- C10: for every GET request, file validation is skipped entirely:
`validateSchema` never runs the files schema for method GET (the files error
category is always `undefined`), even when a files schema is defined for GET
— the `method !== 'GET'` guard covers the files category, not only the body
category. -/
theorem C10_get_skips_files_validation (schema : Option SchemaFile)
    (body filesRaw : Nat) (params : List (String × String)) (query : Nat) :
    (validateSchema "GET" schema body filesRaw params query).files = none := by
  simp [validateSchema]

/-- C1 (code bug witness): an asynchronous `authOverwrite` whose promise
resolves to `false` is not rejected: `authorize` stores the pending `Promise`
in `passedAuthOverwrite`, awaits it, then tests `!passedAuthOverwrite` on the
`Promise` object itself — which is always truthy — so the request proceeds
(and the standard bearer-token flow is skipped) instead of being answered
401.  A synchronous override returning `false` is rejected, showing the two
paths diverge. -/
theorem C1_async_falsy_authOverwrite_accepted :
    authorize { openSettings with authOverwrite := some (.async false) } none
        (fun _ => none) = .proceed none ∧
    authorize { openSettings with authOverwrite := some (.sync false) } none
        (fun _ => none) = .unauthorized ∧
    (handleRequest plainCfg
        [{ route5 with settings := { openSettings with authOverwrite := some (.async false) } }]
        (req5 "1.2.3.4") 0 []).responses = [200] := by
  refine ⟨rfl, rfl, rfl⟩

/-- C5 (counterexample): the first GET from IP A does succeed (200), but the
response carries `X-Ratelimit-Remaining: 1`, not `0` — `check` reports
`limit - count` before `increase` admits the request, so the first response
still shows the full limit remaining. -/
theorem C5_first_request_remaining_counterexample :
    (handleRequest plainCfg [route5] (req5 "A") 0 []).responses = [200] ∧
    (handleRequest plainCfg [route5] (req5 "A") 0 []).rlHeaders =
      some { limit := 1, remaining := 1, reset := 60000, resetAfter := 60000,
             scope := "ip" } ∧
    ¬ ((handleRequest plainCfg [route5] (req5 "A") 0 []).rlHeaders.map
        (fun h => h.remaining) = some 0) := by
  refine ⟨rfl, rfl, by decide⟩

/-- C5 (amended): with `limit=1, remember=60000, punishment=60000,
strict=true, scope=ip` on `/users/:userId`, the first GET from IP A succeeds
(200) with `X-Ratelimit-Remaining: 1` (the header reports `limit - count`
before the admit step increments the count); a second GET from IP A within
the window is answered 429 with `X-Ratelimit-Reset-After` of exactly 60000ms;
and a GET from a different IP B in the same window succeeds (200). -/
theorem C5_ratelimit_headers_amended (t1 t2 t3 : Nat) :
    (handleRequest plainCfg [route5] (req5 "A") t1 []).responses = [200] ∧
    (handleRequest plainCfg [route5] (req5 "A") t1 []).rlHeaders =
      some { limit := 1, remaining := 1, reset := t1 + 60000,
             resetAfter := 60000, scope := "ip" } ∧
    (handleRequest plainCfg [route5] (req5 "A") t2
        (handleRequest plainCfg [route5] (req5 "A") t1 []).finalRl).responses =
      [429] ∧
    (handleRequest plainCfg [route5] (req5 "A") t2
        (handleRequest plainCfg [route5] (req5 "A") t1 []).finalRl).rlHeaders =
      some { limit := 1, remaining := 0, reset := t2 + 60000,
             resetAfter := 60000, scope := "ip" } ∧
    (handleRequest plainCfg [route5] (req5 "B") t3
        (handleRequest plainCfg [route5] (req5 "A") t2
          (handleRequest plainCfg [route5] (req5 "A") t1 []).finalRl).finalRl).responses =
      [200] := by
  have hsub1 : ((t1 + 60000 : Nat) : Int) - (t1 : Int) = 60000 := by omega
  have hsub2 : ((t2 + 60000 : Nat) : Int) - (t2 : Int) = 60000 := by omega
  refine ⟨rfl, ?_, rfl, ?_, rfl⟩
  · rw [show (handleRequest plainCfg [route5] (req5 "A") t1 []).rlHeaders =
        some (mkHeaders route5.ratelimits
          ⟨"A", "GET/users/:userId", 0, t1, t1 + 60000, false⟩ t1) from rfl]
    simp [mkHeaders, route5, hsub1]
  · rw [show (handleRequest plainCfg [route5] (req5 "A") t2
          (handleRequest plainCfg [route5] (req5 "A") t1 []).finalRl).rlHeaders =
        some (mkHeaders route5.ratelimits
          ⟨"A", "GET/users/:userId", 1, t1, t2 + 60000, true⟩ t2) from rfl]
    simp [mkHeaders, route5, hsub2]

/-- Settings with `limit = 3`, `remember = 1000` and arbitrary punishment,
strictness, scope and type (the admission scenario of the spec). -/
def s3 (punishment : Nat) (strict : Bool) (scope type_ : String) : RlSettings :=
  ⟨3, 1000, punishment, strict, scope, type_⟩

/-- C3: for a fresh (client, route) bucket with `limit=3, remember=1000`, the
1st, 2nd and 3rd check-then-admit cycles from one client report not limited,
the 4th cycle reports limited; and once the bucket's `windowEnd` (set to
`now + max(punishment, remember)` at the moment it became limited) has
passed, a `cleanup` sweep drops the bucket, and the next cycle from the same
client starts a fresh bucket and is not limited. -/
theorem C3_ratelimit_admission (p : Nat) (strict : Bool) (sc ty client route : String)
    (n1 n2 n3 n4 n5 t : Nat) (ht : n4 + max p 1000 ≤ t) :
    (cycle (s3 p strict sc ty) client route n1 []).1 = false ∧
    (cycle (s3 p strict sc ty) client route n2
      (cycle (s3 p strict sc ty) client route n1 []).2).1 = false ∧
    (cycle (s3 p strict sc ty) client route n3
      (cycle (s3 p strict sc ty) client route n2
        (cycle (s3 p strict sc ty) client route n1 []).2).2).1 = false ∧
    (cycle (s3 p strict sc ty) client route n4
      (cycle (s3 p strict sc ty) client route n3
        (cycle (s3 p strict sc ty) client route n2
          (cycle (s3 p strict sc ty) client route n1 []).2).2).2).1 = true ∧
    cleanup t
      (cycle (s3 p strict sc ty) client route n4
        (cycle (s3 p strict sc ty) client route n3
          (cycle (s3 p strict sc ty) client route n2
            (cycle (s3 p strict sc ty) client route n1 []).2).2).2).2 = [] ∧
    (cycle (s3 p strict sc ty) client route n5
      (cleanup t
        (cycle (s3 p strict sc ty) client route n4
          (cycle (s3 p strict sc ty) client route n3
            (cycle (s3 p strict sc ty) client route n2
              (cycle (s3 p strict sc ty) client route n1 []).2).2).2).2)).1 = false ∧
    (cycle (s3 p strict sc ty) client route n5
      (cleanup t
        (cycle (s3 p strict sc ty) client route n4
          (cycle (s3 p strict sc ty) client route n3
            (cycle (s3 p strict sc ty) client route n2
              (cycle (s3 p strict sc ty) client route n1 []).2).2).2).2)).2 =
      [⟨client, route, 1, n5, n5 + 1000, false⟩] := by
  have h1 : cycle (s3 p strict sc ty) client route n1 [] =
      (false, [⟨client, route, 1, n1, n1 + 1000, false⟩]) := by
    simp [cycle, check, findItem, freshItem, bucketAfterCheck, increase,
      updateFirst, s3]
  have h2 : cycle (s3 p strict sc ty) client route n2
      [⟨client, route, 1, n1, n1 + 1000, false⟩] =
      (false, [⟨client, route, 2, n1, n1 + 1000, false⟩]) := by
    simp [cycle, check, findItem, freshItem, bucketAfterCheck, increase,
      updateFirst, s3]
  have h3 : cycle (s3 p strict sc ty) client route n3
      [⟨client, route, 2, n1, n1 + 1000, false⟩] =
      (false, [⟨client, route, 3, n1, n1 + 1000, false⟩]) := by
    simp [cycle, check, findItem, freshItem, bucketAfterCheck, increase,
      updateFirst, s3]
  have h4 : cycle (s3 p strict sc ty) client route n4
      [⟨client, route, 3, n1, n1 + 1000, false⟩] =
      (true, [⟨client, route, 3, n1, n4 + max p 1000, true⟩]) := by
    simp [cycle, check, findItem, freshItem, bucketAfterCheck, increase,
      updateFirst, s3]
  have h5 : cleanup t [(⟨client, route, 3, n1, n4 + max p 1000, true⟩ : RatelimitItem)] = [] := by
    simp [cleanup, Nat.not_lt.mpr ht]
  have h6 : cycle (s3 p strict sc ty) client route n5 [] =
      (false, [⟨client, route, 1, n5, n5 + 1000, false⟩]) := by
    simp [cycle, check, findItem, freshItem, bucketAfterCheck, increase,
      updateFirst, s3]
  rw [h1, h2, h3, h4, h5, h6]
  simp

/-- Witness for C3 at `punishment=2000, strict=true`, client `"c"`, route
`"r"`, cycle times 0,1,2,3, sweep at 5000, next cycle at 10. -/
theorem C3_ratelimit_admission_witness :
    (cycle (s3 2000 true "ip" "endpoint") "c" "r" 10
      (cleanup 5000
        (cycle (s3 2000 true "ip" "endpoint") "c" "r" 3
          (cycle (s3 2000 true "ip" "endpoint") "c" "r" 2
            (cycle (s3 2000 true "ip" "endpoint") "c" "r" 1
              (cycle (s3 2000 true "ip" "endpoint") "c" "r" 0 []).2).2).2).2)).1 =
      false :=
  (C3_ratelimit_admission 2000 true "ip" "endpoint" "c" "r" 0 1 2 3 10 5000
    (by decide)).2.2.2.2.2.1

/-! ### Bucket-table invariants -/

theorem bucketAfterCheck_client (s : RlSettings) (now : Nat) (b : RatelimitItem) :
    (bucketAfterCheck s now b).client = b.client := by
  unfold bucketAfterCheck
  repeat' split
  all_goals rfl

theorem bucketAfterCheck_route (s : RlSettings) (now : Nat) (b : RatelimitItem) :
    (bucketAfterCheck s now b).route = b.route := by
  unfold bucketAfterCheck
  repeat' split
  all_goals rfl

theorem bucketAfterCheck_count (s : RlSettings) (now : Nat) (b : RatelimitItem) :
    (bucketAfterCheck s now b).count = b.count := by
  unfold bucketAfterCheck
  repeat' split
  all_goals rfl

theorem bucketAfterCheck_limited_of (s : RlSettings) (now : Nat) (b : RatelimitItem)
    (h : (bucketAfterCheck s now b).limited = true) :
    b.limited = true ∨ s.limit ≤ b.count := by
  unfold bucketAfterCheck at h
  by_cases hc : s.limit ≤ b.count
  · exact Or.inr hc
  · rw [if_neg hc] at h
    exact Or.inl h

theorem mem_updateFirst (c r : String) (f : RatelimitItem → RatelimitItem)
    (st : List RatelimitItem) (b' : RatelimitItem)
    (h : b' ∈ updateFirst c r f st) :
    b' ∈ st ∨ ∃ b, b ∈ st ∧ b.client = c ∧ b.route = r ∧ b' = f b := by
  induction st with
  | nil => simp [updateFirst] at h
  | cons b bs ih =>
    rw [updateFirst] at h
    by_cases hm : b.client = c ∧ b.route = r
    · rw [if_pos hm] at h
      rcases List.mem_cons.mp h with h1 | h1
      · exact Or.inr ⟨b, List.mem_cons_self b bs, hm.1, hm.2, h1⟩
      · exact Or.inl (List.mem_cons_of_mem b h1)
    · rw [if_neg hm] at h
      rcases List.mem_cons.mp h with h1 | h1
      · exact Or.inl (h1 ▸ List.mem_cons_self b bs)
      · rcases ih h1 with h2 | ⟨b0, hb0, hc0, hr0, he0⟩
        · exact Or.inl (List.mem_cons_of_mem b h2)
        · exact Or.inr ⟨b0, List.mem_cons_of_mem b hb0, hc0, hr0, he0⟩

theorem findItem_spec (c r : String) (st : List RatelimitItem) (b : RatelimitItem)
    (h : findItem c r st = some b) :
    b ∈ st ∧ b.client = c ∧ b.route = r := by
  induction st with
  | nil => simp [findItem] at h
  | cons b0 bs ih =>
    rw [findItem] at h
    by_cases hm : b0.client = c ∧ b0.route = r
    · rw [if_pos hm] at h
      injection h with hbb
      subst hbb
      exact ⟨List.mem_cons_self _ _, hm.1, hm.2⟩
    · rw [if_neg hm] at h
      rcases ih h with ⟨h1, h2, h3⟩
      exact ⟨List.mem_cons_of_mem b0 h1, h2, h3⟩

/-- `findItem` after an in-place update of the first matching entry, for an
update that does not change the keys. -/
theorem findItem_updateFirst (c r : String) (f : RatelimitItem → RatelimitItem)
    (st : List RatelimitItem)
    (hfc : ∀ x, (f x).client = x.client) (hfr : ∀ x, (f x).route = x.route) :
    findItem c r (updateFirst c r f st) = (findItem c r st).map f := by
  induction st with
  | nil => simp [updateFirst, findItem]
  | cons b bs ih =>
    by_cases hm : b.client = c ∧ b.route = r
    · rw [updateFirst, if_pos hm, findItem, if_pos (by rw [hfc, hfr]; exact hm),
        findItem, if_pos hm]
      rfl
    · rw [updateFirst, if_neg hm, findItem, if_neg hm, findItem, if_neg hm, ih]

/-- Invariant: every bucket's count is at most the limit of the settings its
route identifier resolves to. -/
def CountInv (S : String → RlSettings) (st : List RatelimitItem) : Prop :=
  ∀ b ∈ st, b.count ≤ (S b.route).limit

/-- Invariant: a limited bucket has reached its limit. -/
def LimitedInv (S : String → RlSettings) (st : List RatelimitItem) : Prop :=
  ∀ b ∈ st, b.limited = true → (S b.route).limit ≤ b.count

theorem countInv_check (S : String → RlSettings) (c r : String) (now : Nat)
    (st : List RatelimitItem) (h : CountInv S st) :
    CountInv S (check (S r) c r now st).state := by
  unfold check
  cases hf : findItem c r st with
  | none =>
    intro b' hb'
    simp only [List.mem_append, List.mem_singleton] at hb'
    rcases hb' with hb' | hb'
    · exact h b' hb'
    · rw [hb', bucketAfterCheck_count]
      exact Nat.zero_le _
  | some b0 =>
    intro b' hb'
    simp only at hb'
    rcases mem_updateFirst c r _ st b' hb' with h1 | ⟨b, hb, _, hbr, he⟩
    · exact h b' h1
    · rw [he, bucketAfterCheck_count, bucketAfterCheck_route]
      exact h b hb

theorem countInv_increase (S : String → RlSettings) (c r : String)
    (st : List RatelimitItem) (h : CountInv S st) :
    CountInv S (increase (S r) c r st) := by
  intro b' hb'
  rcases mem_updateFirst c r _ st b' hb' with h1 | ⟨b, hb, _, hbr, he⟩
  · exact h b' h1
  · rw [he]
    by_cases hlt : (S r).limit > b.count
    · simp only [if_pos hlt]
      rw [show ({ b with count := b.count + 1 } : RatelimitItem).route = b.route from rfl]
      rw [hbr]
      exact hlt
    · simp only [if_neg hlt]
      exact h b hb

theorem countInv_cleanup (S : String → RlSettings) (now : Nat)
    (st : List RatelimitItem) (h : CountInv S st) :
    CountInv S (cleanup now st) := by
  intro b' hb'
  exact h b' (List.mem_of_mem_filter hb')

theorem limitedInv_check (S : String → RlSettings) (c r : String) (now : Nat)
    (st : List RatelimitItem) (h : LimitedInv S st) :
    LimitedInv S (check (S r) c r now st).state := by
  unfold check
  cases hf : findItem c r st with
  | none =>
    intro b' hb' hlim
    simp only [List.mem_append, List.mem_singleton] at hb'
    rcases hb' with hb' | hb'
    · exact h b' hb' hlim
    · rw [hb'] at hlim ⊢
      rw [bucketAfterCheck_count, bucketAfterCheck_route]
      rcases bucketAfterCheck_limited_of _ _ _ hlim with h1 | h1
      · simp [freshItem] at h1
      · simpa [freshItem] using h1
  | some b0 =>
    intro b' hb' hlim
    simp only at hb'
    rcases mem_updateFirst c r _ st b' hb' with h1 | ⟨b, hb, _, hbr, he⟩
    · exact h b' h1 hlim
    · rw [he] at hlim ⊢
      rw [bucketAfterCheck_count, bucketAfterCheck_route]
      rcases bucketAfterCheck_limited_of _ _ _ hlim with h1 | h1
      · exact h b hb h1
      · rw [hbr]
        exact h1

theorem limitedInv_increase (S : String → RlSettings) (c r : String)
    (st : List RatelimitItem) (h : LimitedInv S st) :
    LimitedInv S (increase (S r) c r st) := by
  intro b' hb' hlim
  rcases mem_updateFirst c r _ st b' hb' with h1 | ⟨b, hb, _, hbr, he⟩
  · exact h b' h1 hlim
  · by_cases hlt : (S r).limit > b.count
    · rw [he, if_pos hlt] at hlim ⊢
      have := h b hb hlim
      simp only
      omega
    · rw [he, if_neg hlt] at hlim ⊢
      exact h b hb hlim

theorem limitedInv_cleanup (S : String → RlSettings) (now : Nat)
    (st : List RatelimitItem) (h : LimitedInv S st) :
    LimitedInv S (cleanup now st) := by
  intro b' hb'
  exact h b' (List.mem_of_mem_filter hb')

theorem invs_runOps (S : String → RlSettings) (ops : List RlOp) :
    CountInv S (runOps S ops) ∧ LimitedInv S (runOps S ops) := by
  suffices hgen : ∀ (l : List RlOp) (st : List RatelimitItem),
      CountInv S st → LimitedInv S st →
      CountInv S (l.foldl (applyOp S) st) ∧ LimitedInv S (l.foldl (applyOp S) st) by
    exact hgen ops [] (by intro b hb; simp at hb) (by intro b hb; simp at hb)
  intro l
  induction l with
  | nil => intro st h1 h2; exact ⟨h1, h2⟩
  | cons op rest ih =>
    intro st h1 h2
    rw [List.foldl_cons]
    cases op with
    | check c r now =>
      exact ih _ (countInv_check S c r now st h1) (limitedInv_check S c r now st h2)
    | increase c r =>
      exact ih _ (countInv_increase S c r st h1) (limitedInv_increase S c r st h2)
    | cleanup now =>
      exact ih _ (countInv_cleanup S now st h1) (limitedInv_cleanup S now st h2)

/-- C4: for every reachable bucket that is already limited, a further `check`
with `strict=true` sets `windowEnd` to `now + punishment` (extending it
forward on each such check), while with `strict=false` the bucket — and in
particular its `windowEnd` — is left unchanged; and at the moment a bucket
first becomes limited (`count` has reached `limit` but `limited` is still
false), `windowEnd` is set to `now + max(punishment, remember)`.  (A limited
reachable bucket always satisfies `limit ≤ count`, which is what lets the
`count >= limit` guard fire; this is the `LimitedInv` invariant.) -/
theorem C4_strict_punishment (S : String → RlSettings) (ops : List RlOp)
    (c r : String) (now : Nat) (b : RatelimitItem)
    (hfind : findItem c r (runOps S ops) = some b) :
    (b.limited = true →
      ((S r).strict = true →
        findItem c r (check (S r) c r now (runOps S ops)).state =
          some { b with end_ := now + (S r).punishment }) ∧
      ((S r).strict = false →
        findItem c r (check (S r) c r now (runOps S ops)).state = some b)) ∧
    (b.limited = false → (S r).limit ≤ b.count →
      findItem c r (check (S r) c r now (runOps S ops)).state =
        some { b with limited := true,
                      end_ := now + max (S r).punishment (S r).remember }) := by
  have hpost : findItem c r (check (S r) c r now (runOps S ops)).state =
      some (bucketAfterCheck (S r) now b) := by
    unfold check
    rw [hfind]
    dsimp only
    rw [findItem_updateFirst c r _ _ (fun x => bucketAfterCheck_client _ _ x)
      (fun x => bucketAfterCheck_route _ _ x), hfind, Option.map_some']
  constructor
  · intro hlim
    have hcnt : (S r).limit ≤ b.count := by
      have hspec := findItem_spec c r _ b hfind
      have := (invs_runOps S ops).2 b hspec.1 hlim
      rwa [hspec.2.2] at this
    constructor
    · intro hstrict
      rw [hpost]
      simp [bucketAfterCheck, hcnt, hlim, hstrict]
    · intro hstrict
      rw [hpost]
      simp [bucketAfterCheck, hcnt, hlim, hstrict]
  · intro hlim hcnt
    rw [hpost]
    simp [bucketAfterCheck, hcnt, hlim]

/-- Fixed settings `limit=1, remember=5, punishment=7, strict=true` for every
route identifier (witness fixture). -/
def S0 : String → RlSettings := fun _ => ⟨1, 5, 7, true, "ip", "endpoint"⟩

/-- Operation sequence producing a limited bucket under `S0`: admit one
request, then check again so the bucket becomes limited. -/
def ops0 : List RlOp := [.check "c" "r" 0, .increase "c" "r", .check "c" "r" 1]

/-- Witness for C4: the bucket `⟨"c","r",1,0,8,true⟩` reached by `ops0` is
limited; a strict `check` at time 2 re-arms its window to `2 + 7 = 9`. -/
theorem C4_strict_punishment_witness :
    findItem "c" "r" (check (S0 "r") "c" "r" 2 (runOps S0 ops0)).state =
      some ⟨"c", "r", 1, 0, 9, true⟩ :=
  ((C4_strict_punishment S0 ops0 "c" "r" 2 ⟨"c", "r", 1, 0, 8, true⟩
    (by decide)).1 rfl).1 rfl

/-- C6: the reported `X-Ratelimit-Remaining` value (`limit - count`) is never
negative after any sequence of check/admit/sweep operations, because
`count ≤ limit` is an invariant of every bucket (`increase` only increments
when `count < limit`). -/
theorem C6_remaining_nonneg (S : String → RlSettings) (ops : List RlOp)
    (c r : String) (now : Nat) :
    0 ≤ (check (S r) c r now (runOps S ops)).headers.remaining ∧
    ∀ b ∈ runOps S ops, b.count ≤ (S b.route).limit := by
  have hinv := (invs_runOps S ops).1
  refine ⟨?_, hinv⟩
  unfold check
  cases hf : findItem c r (runOps S ops) with
  | none =>
    dsimp only
    simp only [mkHeaders, bucketAfterCheck_count, freshItem]
    omega
  | some b0 =>
    dsimp only
    have hspec := findItem_spec c r _ b0 hf
    have hcnt := hinv b0 hspec.1
    rw [hspec.2.2] at hcnt
    simp only [mkHeaders, bucketAfterCheck_count]
    omega

/-- Witness for C6 at `S0`, `ops0`: the remaining header of a further check
is nonnegative, and the reachable bucket `⟨"c","r",1,0,8,true⟩` satisfies
`count ≤ limit`. -/
theorem C6_remaining_nonneg_witness :
    0 ≤ (check (S0 "r") "c" "r" 2 (runOps S0 ops0)).headers.remaining ∧
    (⟨"c", "r", 1, 0, 8, true⟩ : RatelimitItem).count ≤
      (S0 (⟨"c", "r", 1, 0, 8, true⟩ : RatelimitItem).route).limit :=
  ⟨(C6_remaining_nonneg S0 ops0 "c" "r" 2).1,
   (C6_remaining_nonneg S0 ops0 "c" "r" 2).2 ⟨"c", "r", 1, 0, 8, true⟩ (by decide)⟩

/-- C2: once a request reaches the middleware stage, exactly one response is
written on every stop/fault path, and the stop sentinel is never classified
as a fault: a middleware entry or the handler that ends processing via the
sentinel produces exactly its own response (responses = `[s]`) with zero
`onError` invocations and no trailing 500; only a real (non-sentinel) error
is reported to `onError` (exactly once) and converted to a single 500. -/
theorem C2_stop_sentinel_single_response (cfg : ServerCfg) (routes : List RouteDef)
    (req : RequestInput) (now : Nat) (rl : List RatelimitItem)
    (route : RouteDef) (params : List (String × String))
    (hres : resolveUrl routes req.url = some (route, params))
    (hdis : route.settings.disabled = false)
    (hmov : route.settings.moved = none)
    (hrl : (check route.ratelimits
      (getClientIdentifier route.ratelimits.scope req.ip none)
      (getRouteIdentifier route.ratelimits.type req.method route.path req.url)
      now rl).limited = false)
    (hauth : (authorize route.settings req.token cfg.authResolver).isProceed = true) :
    (∀ s, executeAll cfg.middlewares = .stopped s →
      (handleRequest cfg routes req now rl).responses = [s] ∧
      (handleRequest cfg routes req now rl).reported = 0) ∧
    (executeAll cfg.middlewares = .errored →
      (handleRequest cfg routes req now rl).responses = [500] ∧
      (handleRequest cfg routes req now rl).reported = 1) ∧
    (executeAll cfg.middlewares = .completed →
      (validateSchema req.method route.schema req.body req.filesRaw params
        req.query).hasErrors = false →
      (∀ s, route.handler = some (.send s) →
        (handleRequest cfg routes req now rl).responses = [s] ∧
        (handleRequest cfg routes req now rl).reported = 0) ∧
      (route.handler = some .fail →
        (handleRequest cfg routes req now rl).responses = [500] ∧
        (handleRequest cfg routes req now rl).reported = 1)) := by
  obtain ⟨p, hA⟩ : ∃ p, authorize route.settings req.token cfg.authResolver =
      .proceed p := by
    cases h : authorize route.settings req.token cfg.authResolver with
    | proceed q => exact ⟨q, rfl⟩
    | unauthorized => rw [h] at hauth; simp [AuthorizeOutcome.isProceed] at hauth
    | exception => rw [h] at hauth; simp [AuthorizeOutcome.isProceed] at hauth
  refine ⟨?_, ?_, ?_⟩
  · intro s hmw
    constructor <;>
      simp [handleRequest, hres, hdis, hmov, hrl, hA, hmw]
  · intro hmw
    constructor <;>
      simp [handleRequest, hres, hdis, hmov, hrl, hA, hmw]
  · intro hmw hval
    constructor
    · intro s hh
      constructor <;>
        simp [handleRequest, hres, hdis, hmov, hrl, hA, hmw, hval, hh]
    · intro hh
      constructor <;>
        simp [handleRequest, hres, hdis, hmov, hrl, hA, hmw, hval, hh]

/-- Middleware-stage fixture: a chain whose second entry writes a 204
response (raising the stop sentinel). -/
def stopCfg : ServerCfg :=
  { middlewares := [.ok, .send 204], authResolver := fun _ => none }

/-- A plain open route at `/m` with a handler that would answer 200. -/
def routeM : RouteDef :=
  { path := "/m", settings := openSettings,
    ratelimits := ⟨5, 1000, 1000, false, "ip", "endpoint"⟩,
    handler := some (.send 200), schema := none }

/-- A GET request to `/m`. -/
def reqM : RequestInput :=
  { url := "/m", method := "GET", ip := "1.2.3.4", token := none,
    body := 0, filesRaw := 0, query := 0 }

/-- Witness for C2: with `stopCfg` the middleware sentinel yields exactly the
middleware's 204 response and no `onError` invocation. -/
theorem C2_stop_sentinel_single_response_witness :
    (handleRequest stopCfg [routeM] reqM 0 []).responses = [204] ∧
    (handleRequest stopCfg [routeM] reqM 0 []).reported = 0 :=
  (C2_stop_sentinel_single_response stopCfg [routeM] reqM 0 [] routeM []
    rfl rfl rfl rfl rfl).1 204 rfl

/-- C9: if some middleware entry writes a response (raising the stop
sentinel), the schema-validation stage and the route handler are never
invoked for that request. -/
theorem C9_middleware_short_circuit (cfg : ServerCfg) (routes : List RouteDef)
    (req : RequestInput) (now : Nat) (rl : List RatelimitItem)
    (route : RouteDef) (params : List (String × String)) (s : Nat)
    (hres : resolveUrl routes req.url = some (route, params))
    (hdis : route.settings.disabled = false)
    (hmov : route.settings.moved = none)
    (hrl : (check route.ratelimits
      (getClientIdentifier route.ratelimits.scope req.ip none)
      (getRouteIdentifier route.ratelimits.type req.method route.path req.url)
      now rl).limited = false)
    (hauth : (authorize route.settings req.token cfg.authResolver).isProceed = true)
    (hmw : executeAll cfg.middlewares = .stopped s) :
    (handleRequest cfg routes req now rl).validatorRan = false ∧
    (handleRequest cfg routes req now rl).handlerRan = false := by
  obtain ⟨p, hA⟩ : ∃ p, authorize route.settings req.token cfg.authResolver =
      .proceed p := by
    cases h : authorize route.settings req.token cfg.authResolver with
    | proceed q => exact ⟨q, rfl⟩
    | unauthorized => rw [h] at hauth; simp [AuthorizeOutcome.isProceed] at hauth
    | exception => rw [h] at hauth; simp [AuthorizeOutcome.isProceed] at hauth
  constructor <;>
    simp [handleRequest, hres, hdis, hmov, hrl, hA, hmw]

/-- Witness for C9: with `stopCfg`, validation and the handler do not run. -/
theorem C9_middleware_short_circuit_witness :
    (handleRequest stopCfg [routeM] reqM 0 []).validatorRan = false ∧
    (handleRequest stopCfg [routeM] reqM 0 []).handlerRan = false :=
  C9_middleware_short_circuit stopCfg [routeM] reqM 0 [] routeM [] 204
    rfl rfl rfl rfl rfl rfl

/-! ### Resolution lemmas -/

theorem resolveUrl_eq_none (routes : List RouteDef) (url : String)
    (h : ∀ r ∈ routes, matchPattern r.path url = none) :
    resolveUrl routes url = none := by
  induction routes with
  | nil => rfl
  | cons hd tl ih =>
    simp only [resolveUrl]
    rw [h hd (List.mem_cons_self _ _)]
    exact ih (fun r hr => h r (List.mem_cons_of_mem hd hr))

theorem resolveUrl_some_spec (routes : List RouteDef) (url : String)
    (r : RouteDef) (ps : List (String × String))
    (h : resolveUrl routes url = some (r, ps)) :
    r ∈ routes ∧ matchPattern r.path url = some ps := by
  induction routes with
  | nil => simp [resolveUrl] at h
  | cons hd tl ih =>
    rw [resolveUrl] at h
    cases hm : matchPattern hd.path url with
    | some ps0 =>
      rw [hm] at h
      dsimp only at h
      injection h with h1
      injection h1 with h2 h3
      subst h2
      subst h3
      exact ⟨List.mem_cons_self _ _, hm⟩
    | none =>
      rw [hm] at h
      dsimp only at h
      rcases ih h with ⟨h1, h2⟩
      exact ⟨List.mem_cons_of_mem hd h1, h2⟩

/-- C8: `resolveUrl` returns the first registered route (in registration
order) whose pattern matches the URL, with named placeholders extracted as
percent-decoded parameters; and when no pattern matches, it returns `none`
and the pipeline responds 404. -/
theorem C8_first_match_resolution (routes : List RouteDef) (url : String) :
    ((∀ r ∈ routes, matchPattern r.path url = none) →
      resolveUrl routes url = none ∧
      ∀ cfg req now rl, req.url = url →
        (handleRequest cfg routes req now rl).responses = [404]) ∧
    (∀ (i : Nat) (ps : List (String × String)) (hi : i < routes.length),
      matchPattern (routes.get ⟨i, hi⟩).path url = some ps →
      (∀ (j : Nat) (hj : j < i),
        matchPattern (routes.get ⟨j, Nat.lt_trans hj hi⟩).path url = none) →
      resolveUrl routes url = some (routes.get ⟨i, hi⟩, ps)) := by
  constructor
  · intro h
    have hnone := resolveUrl_eq_none routes url h
    refine ⟨hnone, ?_⟩
    intro cfg req now rl hurl
    subst hurl
    simp [handleRequest, hnone]
  · intro i
    induction routes generalizing i with
    | nil => intro ps hi; exact absurd hi (Nat.not_lt_zero i)
    | cons hd tl ih =>
      intro ps hi hm hj
      cases i with
      | zero =>
        simp only [List.get] at hm
        simp only [resolveUrl, hm]
        rfl
      | succ n =>
        have h0 : matchPattern hd.path url = none :=
          hj 0 (Nat.succ_pos n)
        simp only [resolveUrl, h0]
        exact ih n ps (Nat.lt_of_succ_lt_succ hi) hm
          (fun j hjn => hj (j + 1) (Nat.succ_lt_succ hjn))

/-- A literal route at `/a` (C8 witness fixture). -/
def routeA : RouteDef :=
  { path := "/a", settings := openSettings,
    ratelimits := ⟨5, 1000, 1000, false, "ip", "endpoint"⟩,
    handler := some (.send 200), schema := none }

/-- A parameterised route at `/users/:id` (C8 witness fixture). -/
def routeUsers : RouteDef :=
  { path := "/users/:id", settings := openSettings,
    ratelimits := ⟨5, 1000, 1000, false, "ip", "endpoint"⟩,
    handler := some (.send 200), schema := none }

/-- A GET request to `/zzz` (matching no registered route). -/
def reqZ : RequestInput :=
  { url := "/zzz", method := "GET", ip := "1.2.3.4", token := none,
    body := 0, filesRaw := 0, query := 0 }

/-- Witness for C8: `/users/%41` skips the non-matching `/a` and resolves to
`/users/:id` with the percent-decoded parameter `id = "A"`; `/zzz` resolves
to nothing and the pipeline answers 404. -/
theorem C8_first_match_resolution_witness :
    resolveUrl [routeA, routeUsers] "/users/%41" =
      some (routeUsers, [("id", "A")]) ∧
    resolveUrl [routeA, routeUsers] "/zzz" = none ∧
    (handleRequest plainCfg [routeA, routeUsers] reqZ 0 []).responses = [404] := by
  have hnomatch : ∀ r ∈ [routeA, routeUsers], matchPattern r.path "/zzz" = none := by
    intro r hr
    rcases List.mem_cons.mp hr with rfl | hr
    · decide
    · rcases List.mem_cons.mp hr with rfl | hr
      · decide
      · simp at hr
  refine ⟨?_, ?_, ?_⟩
  · exact (C8_first_match_resolution [routeA, routeUsers] "/users/%41").2 1
      [("id", "A")] (by norm_num) (by decide)
      (fun j hj => by
        have hj0 : j = 0 := Nat.lt_one_iff.mp hj
        subst hj0
        exact (by decide : matchPattern routeA.path "/users/%41" = none))
  · exact ((C8_first_match_resolution [routeA, routeUsers] "/zzz").1 hnomatch).1
  · exact ((C8_first_match_resolution [routeA, routeUsers] "/zzz").1 hnomatch).2
      plainCfg reqZ 0 [] rfl

/-! ### Registration lemmas -/

theorem mem_setKV (k : String) (v : RouteDef) (st : List (String × RouteDef))
    (kv : String × RouteDef) (h : kv ∈ setKV k v st) :
    kv = (k, v) ∨ kv ∈ st := by
  induction st with
  | nil => simpa [setKV] using h
  | cons hd tl ih =>
    rw [setKV] at h
    by_cases hk : hd.1 = k
    · rw [if_pos hk] at h
      rcases List.mem_cons.mp h with h1 | h1
      · exact Or.inl h1
      · exact Or.inr (List.mem_cons_of_mem hd h1)
    · rw [if_neg hk] at h
      rcases List.mem_cons.mp h with h1 | h1
      · exact Or.inr (h1 ▸ List.mem_cons_self hd tl)
      · rcases ih h1 with h2 | h2
        · exact Or.inl h2
        · exact Or.inr (List.mem_cons_of_mem hd h2)

theorem lookupKV_mem (st : List (String × RouteDef)) (k : String) (v : RouteDef)
    (h : lookupKV st k = some v) : (k, v) ∈ st := by
  induction st with
  | nil => simp [lookupKV] at h
  | cons hd tl ih =>
    rcases hd with ⟨k', v'⟩
    rw [lookupKV] at h
    by_cases hk : k' = k
    · rw [if_pos hk] at h
      injection h with h1
      subst hk
      subst h1
      exact List.mem_cons_self _ _
    · rw [if_neg hk] at h
      exact List.mem_cons_of_mem _ (ih h)

theorem lookupKV_setKV_self (k : String) (v : RouteDef)
    (st : List (String × RouteDef)) : lookupKV (setKV k v st) k = some v := by
  induction st with
  | nil => simp [setKV, lookupKV]
  | cons hd tl ih =>
    rw [setKV]
    by_cases hk : hd.1 = k
    · rw [if_pos hk, lookupKV, if_pos rfl]
    · rw [if_neg hk]
      rcases hd with ⟨k', v'⟩
      rw [lookupKV, if_neg hk]
      exact ih

theorem lookupKV_setKV_ne (k k' : String) (v : RouteDef)
    (st : List (String × RouteDef)) (h : k ≠ k') :
    lookupKV (setKV k v st) k' = lookupKV st k' := by
  induction st with
  | nil => simp [setKV, lookupKV, if_neg h]
  | cons hd tl ih =>
    rcases hd with ⟨k0, v0⟩
    rw [setKV]
    by_cases hk : k0 = k
    · rw [if_pos hk, lookupKV, if_neg h, lookupKV, if_neg (hk ▸ h)]
    · rw [if_neg hk, lookupKV, lookupKV]
      by_cases hk' : k0 = k'
      · rw [if_pos hk', if_pos hk']
      · rw [if_neg hk', if_neg hk']
        exact ih

theorem lookupKV_internalFold_no_hit (il : List RouteDef)
    (st : List (String × RouteDef)) (p : String)
    (h : ∀ r ∈ il, r.path ≠ p) :
    lookupKV (internalFold il st) p = lookupKV st p := by
  induction il generalizing st with
  | nil => rfl
  | cons hd tl ih =>
    rw [internalFold, List.foldl_cons]
    rw [show List.foldl (fun items r => setKV r.path r items)
      (setKV hd.path hd st) tl = internalFold tl (setKV hd.path hd st) from rfl]
    rw [ih (setKV hd.path hd st) (fun r hr => h r (List.mem_cons_of_mem hd hr))]
    exact lookupKV_setKV_ne hd.path p hd st (h hd (List.mem_cons_self hd tl))

theorem lookupKV_internalFold_hit (il : List RouteDef)
    (st : List (String × RouteDef)) (p : String)
    (h : ∃ r ∈ il, r.path = p) :
    ∃ r, r ∈ il ∧ r.path = p ∧ lookupKV (internalFold il st) p = some r := by
  induction il generalizing st with
  | nil => simp at h
  | cons hd tl ih =>
    rw [internalFold, List.foldl_cons]
    rw [show List.foldl (fun items r => setKV r.path r items)
      (setKV hd.path hd st) tl = internalFold tl (setKV hd.path hd st) from rfl]
    by_cases htl : ∃ r ∈ tl, r.path = p
    · rcases ih (setKV hd.path hd st) htl with ⟨r, hr, hrp, hl⟩
      exact ⟨r, List.mem_cons_of_mem hd hr, hrp, hl⟩
    · have hhd : hd.path = p := by
        rcases h with ⟨r, hr, hrp⟩
        rcases List.mem_cons.mp hr with rfl | hr
        · exact hrp
        · exact absurd ⟨r, hr, hrp⟩ htl
      refine ⟨hd, List.mem_cons_self hd tl, hhd, ?_⟩
      rw [lookupKV_internalFold_no_hit tl (setKV hd.path hd st) p
        (fun r hr hrp => htl ⟨r, hr, hrp⟩)]
      rw [hhd]
      exact lookupKV_setKV_self p hd st

/-- Invariant of the user-route loop: every stored entry is keyed by its
route's path and that path is not reserved. -/
theorem userFold_inv (reserved : List String) (ul : List RouteDef)
    (acc : List (String × RouteDef) × Nat)
    (hacc : ∀ kv ∈ acc.1, kv.1 = kv.2.path ∧ kv.2.path ∉ reserved) :
    ∀ kv ∈ (ul.foldl (userFoldStep reserved) acc).1,
      kv.1 = kv.2.path ∧ kv.2.path ∉ reserved := by
  induction ul generalizing acc with
  | nil => exact hacc
  | cons hd tl ih =>
    rw [List.foldl_cons]
    apply ih
    unfold userFoldStep
    by_cases hr : hd.path ∈ reserved
    · rw [if_pos hr]
      exact hacc
    · rw [if_neg hr]
      intro kv hkv
      rcases mem_setKV hd.path hd acc.1 kv hkv with h1 | h1
      · rw [h1]
        exact ⟨rfl, hr⟩
      · exact hacc kv h1

/-- The warning counter of the user-route loop never decreases. -/
theorem userFold_warn_mono (reserved : List String) (ul : List RouteDef)
    (acc : List (String × RouteDef) × Nat) :
    acc.2 ≤ (ul.foldl (userFoldStep reserved) acc).2 := by
  induction ul generalizing acc with
  | nil => exact Nat.le_refl _
  | cons hd tl ih =>
    rw [List.foldl_cons]
    refine Nat.le_trans ?_ (ih (userFoldStep reserved acc hd))
    unfold userFoldStep
    by_cases hr : hd.path ∈ reserved
    · rw [if_pos hr]
      exact Nat.le_succ _
    · rw [if_neg hr]

/-- Each user route with a reserved path contributes a warning. -/
theorem userFold_warn_of_mem (reserved : List String) (ul : List RouteDef)
    (acc : List (String × RouteDef) × Nat) (u : RouteDef)
    (hu : u ∈ ul) (hres : u.path ∈ reserved) :
    acc.2 + 1 ≤ (ul.foldl (userFoldStep reserved) acc).2 := by
  induction ul generalizing acc with
  | nil => simp at hu
  | cons hd tl ih =>
    rw [List.foldl_cons]
    rcases List.mem_cons.mp hu with rfl | hu
    · refine Nat.le_trans ?_ (userFold_warn_mono reserved tl _)
      unfold userFoldStep
      rw [if_pos hres]
    · refine Nat.le_trans ?_ (ih _ hu)
      have : acc.2 ≤ (userFoldStep reserved acc hd).2 := by
        unfold userFoldStep
        by_cases hr : hd.path ∈ reserved
        · rw [if_pos hr]
          exact Nat.le_succ _
        · rw [if_neg hr]
      omega

/-- Entries after the internal-route loop satisfy any property that held of
the starting entries and holds of every inserted `(path, route)` pair. -/
theorem internalFold_inv_gen (P : String × RouteDef → Prop) (il : List RouteDef)
    (st : List (String × RouteDef))
    (hst : ∀ kv ∈ st, P kv) (hins : ∀ r ∈ il, P (r.path, r)) :
    ∀ kv ∈ internalFold il st, P kv := by
  induction il generalizing st with
  | nil => exact hst
  | cons hd tl ih =>
    rw [internalFold, List.foldl_cons]
    rw [show List.foldl (fun items r => setKV r.path r items)
      (setKV hd.path hd st) tl = internalFold tl (setKV hd.path hd st) from rfl]
    apply ih
    · intro kv hkv
      rcases mem_setKV hd.path hd st kv hkv with h1 | h1
      · rw [h1]
        exact hins hd (List.mem_cons_self hd tl)
      · exact hst kv h1
    · exact fun r hr => hins r (List.mem_cons_of_mem hd hr)

/-- After inserting the internal routes, every entry is keyed by its route's
path, and is either a surviving user route (non-reserved path) or an internal
route. -/
theorem internalFold_inv (il : List RouteDef) (reserved : List String)
    (st : List (String × RouteDef))
    (hst : ∀ kv ∈ st, kv.1 = kv.2.path ∧ kv.2.path ∉ reserved) :
    ∀ kv ∈ internalFold il st,
      kv.1 = kv.2.path ∧ (kv.2.path ∉ reserved ∨ kv.2 ∈ il) := by
  apply internalFold_inv_gen
    (fun kv => kv.1 = kv.2.path ∧ (kv.2.path ∉ reserved ∨ kv.2 ∈ il))
  · intro kv hkv
    rcases hst kv hkv with ⟨h1, h2⟩
    exact ⟨h1, Or.inl h2⟩
  · exact fun r hr => ⟨rfl, Or.inr hr⟩

theorem segMatch_self (segs : List String) : ∃ ps, segMatch segs segs = some ps := by
  induction segs with
  | nil => exact ⟨[], rfl⟩
  | cons s rest ih =>
    obtain ⟨ps, hps⟩ := ih
    by_cases hp : isParamSeg s
    · have hne : ¬ s = "" := by
        intro h
        rw [h] at hp
        exact absurd hp (by decide)
      refine ⟨(paramName s, percentDecode s) :: ps, ?_⟩
      rw [segMatch, if_pos hp, if_neg hne, hps]
      rfl
    · refine ⟨ps, ?_⟩
      rw [segMatch, if_neg hp, if_pos rfl]
      exact hps

theorem matchPattern_self (p : String)
    (hwf : normalizeSegs (splitPath p) = splitPath p) :
    ∃ ps, matchPattern p p = some ps := by
  unfold matchPattern
  rw [hwf]
  exact segMatch_self _

theorem resolveUrl_none_spec (routes : List RouteDef) (url : String)
    (h : resolveUrl routes url = none) :
    ∀ r ∈ routes, matchPattern r.path url = none := by
  induction routes with
  | nil => intro r hr; simp at hr
  | cons hd tl ih =>
    rw [resolveUrl] at h
    cases hm : matchPattern hd.path url with
    | some ps =>
      rw [hm] at h
      simp at h
    | none =>
      rw [hm] at h
      dsimp only at h
      intro r hr
      rcases List.mem_cons.mp hr with rfl | hr
      · exact hm
      · exact ih h r hr

/-- A user route whose derived path is the parameter pattern `/:x` (it is
registered before the reserved routes and its pattern matches any
one-segment URL). -/
def uWild : RouteDef :=
  { path := "/:x", settings := openSettings,
    ratelimits := ⟨5, 1000, 1000, false, "ip", "endpoint"⟩,
    handler := some (.send 200), schema := none }

/-- A user route whose derived path collides with the reserved
`/__client__`. -/
def uClient : RouteDef :=
  { path := "/__client__", settings := openSettings,
    ratelimits := ⟨5, 1000, 1000, false, "ip", "endpoint"⟩,
    handler := some (.send 200), schema := none }

/-- The framework's reserved `/__client__` route (distinguishable from
`uClient` by its handler). -/
def rsvClient : RouteDef :=
  { path := "/__client__", settings := openSettings,
    ratelimits := ⟨5, 1000, 1000, false, "ip", "endpoint"⟩,
    handler := some (.send 201), schema := none }

/-- C7 (counterexample): registration does drop the conflicting user route
`uClient` and insert the reserved route afterwards, but resolving the
reserved path does **not** always yield the reserved route: a surviving user
route registered earlier whose pattern overlaps the reserved path (here
`/:x`) wins first-match resolution, so `/__client__` resolves to the user
route with pattern `/:x`, not to the reserved route. -/
theorem C7_reserved_always_resolves_counterexample :
    routeValues (initRoutes [uWild, uClient] [rsvClient]).1 = [uWild, rsvClient] ∧
    (resolveUrl (routeValues (initRoutes [uWild, uClient] [rsvClient]).1)
        "/__client__").map (fun rp => rp.1.path) = some "/:x" ∧
    ("/:x" : String) ≠ "/__client__" :=
  ⟨rfl, rfl, by decide⟩

/-- C7 (amended): for every user route whose derived path equals a reserved
(internal) path, registration drops the user route with a warning and inserts
the reserved route afterward; the dropped user route never appears in the
route table (so it is never reachable), the reserved route occupies that path
key, and — provided no surviving (non-internal) route's pattern also matches
the reserved path — resolving that path yields a reserved route.  (Without
that proviso an earlier-registered overlapping user pattern wins first-match
resolution; see the counterexample.) -/
theorem C7_reserved_precedence_amended (userRoutes internalRoutes : List RouteDef)
    (u : RouteDef)
    (hu : u ∈ userRoutes)
    (hpath : u.path ∈ internalRoutes.map (fun r => r.path))
    (hnotint : u ∉ internalRoutes)
    (hwf : normalizeSegs (splitPath u.path) = splitPath u.path) :
    u ∉ routeValues (initRoutes userRoutes internalRoutes).1 ∧
    (∃ r, r ∈ internalRoutes ∧ r.path = u.path ∧
      lookupKV (initRoutes userRoutes internalRoutes).1 u.path = some r) ∧
    1 ≤ (initRoutes userRoutes internalRoutes).2 ∧
    ((∀ v ∈ routeValues (initRoutes userRoutes internalRoutes).1,
        v ∉ internalRoutes → matchPattern v.path u.path = none) →
      ∃ r ps,
        resolveUrl (routeValues (initRoutes userRoutes internalRoutes).1) u.path =
          some (r, ps) ∧ r ∈ internalRoutes) := by
  have hinv : ∀ kv ∈ (initRoutes userRoutes internalRoutes).1,
      kv.1 = kv.2.path ∧
        (kv.2.path ∉ internalRoutes.map (fun r => r.path) ∨ kv.2 ∈ internalRoutes) := by
    intro kv hkv
    refine internalFold_inv internalRoutes (internalRoutes.map (fun r => r.path))
      _ ?_ kv hkv
    exact userFold_inv (internalRoutes.map (fun r => r.path)) userRoutes ([], 0)
      (by intro kv hkv; simp at hkv)
  refine ⟨?_, ?_, ?_, ?_⟩
  · intro hmem
    rcases List.mem_map.mp hmem with ⟨kv, hkv, hkv2⟩
    rcases hinv kv hkv with ⟨_, h2 | h2⟩
    · rw [hkv2] at h2
      exact h2 hpath
    · rw [hkv2] at h2
      exact hnotint h2
  · rcases List.mem_map.mp hpath with ⟨r1, hr1, hr1p⟩
    exact lookupKV_internalFold_hit internalRoutes _ u.path ⟨r1, hr1, hr1p⟩
  · exact userFold_warn_of_mem (internalRoutes.map (fun r => r.path))
      userRoutes ([], 0) u hu hpath
  · intro hshadow
    obtain ⟨r0, hr0, hr0p, hr0l⟩ :
        ∃ r, r ∈ internalRoutes ∧ r.path = u.path ∧
          lookupKV (initRoutes userRoutes internalRoutes).1 u.path = some r := by
      rcases List.mem_map.mp hpath with ⟨r1, hr1, hr1p⟩
      exact lookupKV_internalFold_hit internalRoutes _ u.path ⟨r1, hr1, hr1p⟩
    have hr0mem : r0 ∈ routeValues (initRoutes userRoutes internalRoutes).1 :=
      List.mem_map.mpr ⟨(u.path, r0), lookupKV_mem _ _ _ hr0l, rfl⟩
    obtain ⟨ps0, hps0⟩ : ∃ ps, matchPattern r0.path u.path = some ps := by
      rw [hr0p]
      exact matchPattern_self u.path hwf
    cases hres : resolveUrl (routeValues (initRoutes userRoutes internalRoutes).1)
        u.path with
    | none =>
      have := resolveUrl_none_spec _ _ hres r0 hr0mem
      rw [this] at hps0
      cases hps0
    | some rp =>
      rcases rp with ⟨r, ps⟩
      rcases resolveUrl_some_spec _ _ r ps hres with ⟨hrmem, hrmatch⟩
      refine ⟨r, ps, rfl, ?_⟩
      by_contra hnint
      rw [hshadow r hrmem hnint] at hrmatch
      cases hrmatch

/-- Witness for the amended C7 at the concrete conflict `uClient` vs
`rsvClient` (no surviving user route shadows the reserved path here). -/
theorem C7_reserved_precedence_amended_witness :
    uClient ∉ routeValues (initRoutes [uClient] [rsvClient]).1 ∧
    (∃ r, r ∈ [rsvClient] ∧ r.path = uClient.path ∧
      lookupKV (initRoutes [uClient] [rsvClient]).1 uClient.path = some r) ∧
    1 ≤ (initRoutes [uClient] [rsvClient]).2 ∧
    (∃ r ps,
      resolveUrl (routeValues (initRoutes [uClient] [rsvClient]).1) uClient.path =
        some (r, ps) ∧ r ∈ [rsvClient]) := by
  have hnotint : uClient ∉ [rsvClient] := by
    intro h
    have h1 := List.mem_singleton.mp h
    have h2 := congrArg (fun r => r.handler) h1
    exact absurd h2 (by decide)
  have h := C7_reserved_precedence_amended [uClient] [rsvClient] uClient
    (List.mem_singleton.mpr rfl) (by decide) hnotint (by decide)
  refine ⟨h.1, h.2.1, h.2.2.1, h.2.2.2 ?_⟩
  intro v hv hnv
  exact absurd hv hnv

/-- A schema file that (unusually) defines a files validator for GET — the
validator rejects everything, so if it ever ran it would produce an error. -/
def gFilesMethodSchema : MethodSchema :=
  { body := none, files := some (fun _ => Except.error 7), query := none }

def gFilesSchema : SchemaFile :=
  { methods := [("GET", gFilesMethodSchema)], params := none }

/-- Witness for C10: even with a rejecting files validator bound for GET, the
files error category stays empty. -/
theorem C10_get_skips_files_validation_witness :
    (validateSchema "GET" (some gFilesSchema) 0 0 [] 0).files = none :=
  C10_get_skips_files_validation (some gFilesSchema) 0 0 [] 0

/-- Witness for the amended C5 at request times 0, 1, 2. -/
theorem C5_ratelimit_headers_amended_witness :
    (handleRequest plainCfg [route5] (req5 "A") 0 []).responses = [200] ∧
    (handleRequest plainCfg [route5] (req5 "A") 0 []).rlHeaders =
      some { limit := 1, remaining := 1, reset := 0 + 60000,
             resetAfter := 60000, scope := "ip" } ∧
    (handleRequest plainCfg [route5] (req5 "A") 1
        (handleRequest plainCfg [route5] (req5 "A") 0 []).finalRl).responses =
      [429] ∧
    (handleRequest plainCfg [route5] (req5 "A") 1
        (handleRequest plainCfg [route5] (req5 "A") 0 []).finalRl).rlHeaders =
      some { limit := 1, remaining := 0, reset := 1 + 60000,
             resetAfter := 60000, scope := "ip" } ∧
    (handleRequest plainCfg [route5] (req5 "B") 2
        (handleRequest plainCfg [route5] (req5 "A") 1
          (handleRequest plainCfg [route5] (req5 "A") 0 []).finalRl).finalRl).responses =
      [200] :=
  C5_ratelimit_headers_amended 0 1 2

end LixqaApi
